import Mathlib

/-!
Verification of the anchor-escrow program's natural-language specification.

The repository ships the program's dispatch module (`src/programs/anchor_escrow/src/lib.rs`)
and its test suite; the instruction-handler bodies (`instructions/make.rs`,
`instructions/take.rs`, `instructions/refund.rs`, `state.rs`, `errors.rs`) are referenced
by the dispatcher but not included.  The address-derivation scheme is embedded from the
tests (`Pubkey::find_program_address(&[b"escrow", maker, seed.to_le_bytes()], ...)` and
`get_associated_token_address(&escrow_pda, &mint_a)`); the three handlers are modelled
from the specification, sections 4.2 through 4.4, as noted on each definition.
-/

namespace AnchorEscrow

/-- Asset (token mint) identifier. -/
abbrev AssetId := Nat

/-- Addresses of the hosting ledger.  `key` is an ordinary keypair-controlled address;
`pda` is a program-derived address built from a literal tag, an owner address and a
byte string (the shape produced by `find_program_address` in the tests); `ata` is an
associated token address determined by its owner address and a mint
(`get_associated_token_address` in the tests). -/
inductive Addr where
  | key : Nat → Addr
  | pda : List Nat → Addr → List Nat → Addr
  | ata : Addr → AssetId → Addr
deriving DecidableEq, Repr

/-- The bytes of the literal tag `b"escrow"` used as the first derivation seed
in the tests. -/
def escrowTagBytes : List Nat := [101, 115, 99, 114, 111, 119]

/-- Little-endian byte decomposition, `k` bytes. -/
def leBytes : Nat → Nat → List Nat
  | 0, _ => []
  | k + 1, n => n % 256 :: leBytes k (n / 256)

/-- Little-endian 8-byte encoding of a `u64`, as `seed.to_le_bytes()` in the tests. -/
def u64le (n : Nat) : List Nat := leBytes 8 n

/-- Value of a little-endian byte string. -/
def leVal : List Nat → Nat
  | [] => 0
  | b :: bs => b + 256 * leVal bs

/-- The escrow record's address: the program-derived address of the fixed literal tag
`"escrow"`, the maker's address and the little-endian seed bytes, as derived in
`src/tests/litesvm-tests.rs` lines 99-102. -/
def escrowAddress (maker : Addr) (seed : Nat) : Addr :=
  Addr.pda escrowTagBytes maker (u64le seed)

/-- The vault's address: the associated token address of the escrow record's derived
address and asset A, as in `get_associated_token_address(&escrow_pda, &mint_a)`
in the tests. -/
def vaultAddress (escrow : Addr) (asset_a : AssetId) : Addr :=
  Addr.ata escrow asset_a

/-- Modelled from the spec: the derivation proof value (`address_derivation_proof: u8`,
the bump) discovered by the creating operation; its numeric value is opaque to every
property in the spec, only its persistence in the record matters. -/
def modelBump : Nat := 255

/-- One open trade's escrow record (spec section 3, `EscrowRecord`). -/
structure EscrowRecord where
  seed : Nat
  maker : Addr
  asset_a : AssetId
  asset_b : AssetId
  receive_amount : Nat
  bump : Nat
deriving DecidableEq, Repr

/-- A token (asset-denominated balance) account of the hosting ledger. -/
structure TokenAccount where
  mint : AssetId
  owner : Addr
  amount : Nat
deriving DecidableEq, Repr

/-- Errors of the spec's taxonomy (section 7). -/
inductive EscrowError where
  | InvalidAmount
  | InsufficientFunds
  | AddressMismatch
  | AssetMismatch
  | Unauthorized
  | RecordNotFound
  | DuplicateTrade
deriving DecidableEq, Repr

/-- The durable state: the escrow record store and the token accounts of the ledger. -/
structure Chain where
  records : Addr → Option EscrowRecord
  tokens : Addr → Option TokenAccount

/-- Point update of a keyed store. -/
def upd {α : Type} (f : Addr → Option α) (k : Addr) (v : Option α) : Addr → Option α :=
  fun x => if x = k then v else f x

/-- Credit `amt` of `mint` to `dst`, creating the account (owned by `owner`) if it
is absent — the spec's "created if absent" destination accounts in Take. -/
def credit (tok : Addr → Option TokenAccount) (dst : Addr) (mint : AssetId)
    (owner : Addr) (amt : Nat) : Addr → Option TokenAccount :=
  match tok dst with
  | none => upd tok dst (some ⟨mint, owner, amt⟩)
  | some acct => upd tok dst (some ⟨acct.mint, acct.owner, acct.amount + amt⟩)

/-- Balance of a token-account address (0 when the account is absent). -/
def balOfTok (tok : Addr → Option TokenAccount) (x : Addr) : Nat :=
  match tok x with
  | none => 0
  | some acct => acct.amount

/-- Balance of a token-account address in a chain state. -/
def balOf (st : Chain) (x : Addr) : Nat := balOfTok st.tokens x

/-- Caller-supplied accounts and arguments of the `make` operation
(spec section 4.2 and the account list of section 6). -/
structure MakeArgs where
  maker : Addr
  escrow : Addr
  asset_a : AssetId
  asset_b : AssetId
  maker_ata_a : Addr
  vault : Addr
  seed : Nat
  receive : Nat
  amount : Nat
deriving DecidableEq, Repr

/-- Caller-supplied accounts of the `take` operation (spec section 4.3). -/
structure TakeArgs where
  taker : Addr
  maker : Addr
  escrow : Addr
  asset_a : AssetId
  asset_b : AssetId
  vault : Addr
  taker_ata_a : Addr
  taker_ata_b : Addr
  maker_ata_b : Addr
deriving DecidableEq, Repr

/-- Caller-supplied accounts of the `refund` operation (spec section 4.4). -/
structure RefundArgs where
  maker : Addr
  escrow : Addr
  vault : Addr
  maker_ata_a : Addr
deriving DecidableEq, Repr

/-- Modelled from the spec (section 4.2, Make; handler body `instructions/make.rs` is
not under `src/`): validate amounts, derive and verify the record and vault addresses,
reject a duplicate trade, then initialize the vault (owned by the record's derived
address), initialize the record, and move `amount` of asset A from the maker's source
into the vault.  All checks precede every mutation. -/
def make (st : Chain) (a : MakeArgs) : Except EscrowError Chain :=
  if a.receive = 0 ∨ a.amount = 0 then .error .InvalidAmount
  else if a.escrow = escrowAddress a.maker a.seed then
    if (st.records a.escrow).isSome then .error .DuplicateTrade
    else if a.vault = vaultAddress a.escrow a.asset_a then
      if a.maker_ata_a = Addr.ata a.maker a.asset_a then
        match st.tokens a.maker_ata_a with
        | none => .error .InsufficientFunds
        | some src =>
          if src.amount < a.amount then .error .InsufficientFunds
          else
            .ok ⟨upd st.records a.escrow
                   (some ⟨a.seed, a.maker, a.asset_a, a.asset_b, a.receive, modelBump⟩),
                 upd (upd st.tokens a.maker_ata_a
                        (some ⟨src.mint, src.owner, src.amount - a.amount⟩))
                   a.vault (some ⟨a.asset_a, a.escrow, a.amount⟩)⟩
      else .error .AddressMismatch
    else .error .AddressMismatch
  else .error .AddressMismatch

/-- Modelled from the spec (section 4.3, Take; handler body `instructions/take.rs` is
not under `src/`): look up the record, validate the stored maker against the supplied
maker, the supplied assets against the stored assets, re-derive the record address and
the vault and destination addresses, check the taker's asset-B balance; then, as one
unit: transfer `receive_amount` of asset B from taker to maker, transfer the vault's
full asset-A balance to the taker, close the vault and delete the record.  All checks
precede every mutation. -/
def take (st : Chain) (a : TakeArgs) : Except EscrowError Chain :=
  match st.records a.escrow with
  | none => .error .RecordNotFound
  | some er =>
    if a.maker = er.maker then
      if a.asset_a = er.asset_a ∧ a.asset_b = er.asset_b then
        if a.escrow = escrowAddress er.maker er.seed then
          if a.vault = vaultAddress a.escrow er.asset_a then
            if a.taker_ata_b = Addr.ata a.taker er.asset_b then
              if a.taker_ata_a = Addr.ata a.taker er.asset_a then
                if a.maker_ata_b = Addr.ata a.maker er.asset_b then
                  match st.tokens a.vault with
                  | none => .error .RecordNotFound
                  | some vaultAcct =>
                    match st.tokens a.taker_ata_b with
                    | none => .error .InsufficientFunds
                    | some tb =>
                      if tb.amount < er.receive_amount then .error .InsufficientFunds
                      else
                        .ok ⟨upd st.records a.escrow none,
                             upd (credit (credit
                                    (upd st.tokens a.taker_ata_b
                                      (some ⟨tb.mint, tb.owner,
                                             tb.amount - er.receive_amount⟩))
                                    a.maker_ata_b er.asset_b a.maker er.receive_amount)
                                  a.taker_ata_a er.asset_a a.taker vaultAcct.amount)
                               a.vault none⟩
                else .error .AddressMismatch
              else .error .AddressMismatch
            else .error .AddressMismatch
          else .error .AddressMismatch
        else .error .AddressMismatch
      else .error .AssetMismatch
    else .error .AddressMismatch

/-- Modelled from the spec (section 4.4, Refund; handler body `instructions/refund.rs`
is not under `src/`): look up the record, require the signing caller to equal the
stored maker (else `Unauthorized`), re-derive the record address and the vault and
destination addresses, then transfer the vault's full asset-A balance back to the
maker, close the vault and delete the record.  All checks precede every mutation. -/
def refund (st : Chain) (a : RefundArgs) : Except EscrowError Chain :=
  match st.records a.escrow with
  | none => .error .RecordNotFound
  | some er =>
    if a.maker = er.maker then
      if a.escrow = escrowAddress er.maker er.seed then
        if a.vault = vaultAddress a.escrow er.asset_a then
          if a.maker_ata_a = Addr.ata a.maker er.asset_a then
            match st.tokens a.vault with
            | none => .error .RecordNotFound
            | some vaultAcct =>
              .ok ⟨upd st.records a.escrow none,
                   upd (credit st.tokens a.maker_ata_a er.asset_a a.maker vaultAcct.amount)
                     a.vault none⟩
          else .error .AddressMismatch
        else .error .AddressMismatch
      else .error .AddressMismatch
    else .error .Unauthorized

/-- Transactional execution by the host: a failed operation is rolled back whole, so
the pre-state is kept; a successful one commits its post-state (spec sections 5, 7). -/
def runOp (f : Chain → Except EscrowError Chain) (st : Chain) : Chain × Option EscrowError :=
  match f st with
  | .ok st' => (st', none)
  | .error e => (st, some e)

/-- Sequencing of two operations, stopping at the first error. -/
def andThen (r : Except EscrowError Chain) (f : Chain → Except EscrowError Chain) :
    Except EscrowError Chain :=
  match r with
  | .error e => .error e
  | .ok st => f st

/-- Token account stored at `x` in the result of a successful operation
(`none` when the operation failed). -/
def finTokens (r : Except EscrowError Chain) (x : Addr) : Option (Option TokenAccount) :=
  match r with
  | .error _ => none
  | .ok st => some (st.tokens x)

/-- Record stored at `x` in the result of a successful operation. -/
def finRecords (r : Except EscrowError Chain) (x : Addr) : Option (Option EscrowRecord) :=
  match r with
  | .error _ => none
  | .ok st => some (st.records x)

/-- Balance at `x` in the result of a successful operation. -/
def finBal (r : Except EscrowError Chain) (x : Addr) : Option Nat :=
  match r with
  | .error _ => none
  | .ok st => some (balOf st x)

/-- A trade keyed by (maker, seed) is open when a record exists at its derived
address (spec section 4.5). -/
def tradeOpen (st : Chain) (maker : Addr) (seed : Nat) : Prop :=
  (st.records (escrowAddress maker seed)).isSome

/-- Correctly matched `make` accounts for maker key `m`, assets `aA`/`aB` and the
given arguments (spec section 4.2's input discipline). -/
def mkMakeArgs (m aA aB seed recv dep : Nat) : MakeArgs :=
  { maker := .key m
    escrow := escrowAddress (.key m) seed
    asset_a := aA
    asset_b := aB
    maker_ata_a := .ata (.key m) aA
    vault := vaultAddress (escrowAddress (.key m) seed) aA
    seed := seed
    receive := recv
    amount := dep }

/-- Correctly matched `take` accounts for maker `m`, taker `t` (spec section 4.3). -/
def mkTakeArgs (m t aA aB seed : Nat) : TakeArgs :=
  { taker := .key t
    maker := .key m
    escrow := escrowAddress (.key m) seed
    asset_a := aA
    asset_b := aB
    vault := vaultAddress (escrowAddress (.key m) seed) aA
    taker_ata_a := .ata (.key t) aA
    taker_ata_b := .ata (.key t) aB
    maker_ata_b := .ata (.key m) aB }

/-- Correctly matched `refund` accounts for maker `m` (spec section 4.4). -/
def mkRefundArgs (m aA seed : Nat) : RefundArgs :=
  { maker := .key m
    escrow := escrowAddress (.key m) seed
    vault := vaultAddress (escrowAddress (.key m) seed) aA
    maker_ata_a := .ata (.key m) aA }

/-- The state reached by a successful `make` from `st` with maker key `m`,
assets `aA`/`aB`, the given seed and amounts, and source account `src`: record
created at the derived address, vault initialized and funded, source debited. -/
def postMake (st : Chain) (m aA aB seed recv dep : Nat) (src : TokenAccount) : Chain :=
  ⟨upd st.records (escrowAddress (Addr.key m) seed)
      (some ⟨seed, Addr.key m, aA, aB, recv, modelBump⟩),
   upd (upd st.tokens (Addr.ata (Addr.key m) aA)
          (some ⟨src.mint, src.owner, src.amount - dep⟩))
     (vaultAddress (escrowAddress (Addr.key m) seed) aA)
     (some ⟨aA, escrowAddress (Addr.key m) seed, dep⟩)⟩

/-! Concrete states and arguments mirroring the test scenario
(`src/tests/litesvm-tests.rs`): maker `key 0`, taker `key 1`, asset A mint `0`,
asset B mint `1`, seed `42`, deposit `1_000_000_000`, demanded `500_000_000`. -/

/-- The derived record address of the test trade. -/
def escrowE : Addr := escrowAddress (Addr.key 0) 42

/-- The test trade's vault address. -/
def vaultV : Addr := vaultAddress escrowE 0

/-- Maker's asset-A associated token address. -/
def makerAtaA : Addr := Addr.ata (Addr.key 0) 0

/-- Maker's asset-B associated token address. -/
def makerAtaB : Addr := Addr.ata (Addr.key 0) 1

/-- Taker's asset-A associated token address. -/
def takerAtaA : Addr := Addr.ata (Addr.key 1) 0

/-- Taker's asset-B associated token address. -/
def takerAtaB : Addr := Addr.ata (Addr.key 1) 1

/-- Initial state of the test: maker holds 1_000_000_000 of asset A, taker holds
500_000_000 of asset B, no trade open. -/
def chain0 : Chain :=
  ⟨fun _ => none,
   upd (upd (fun _ => none) makerAtaA (some ⟨0, Addr.key 0, 1000000000⟩))
     takerAtaB (some ⟨1, Addr.key 1, 500000000⟩)⟩

/-- The test trade's escrow record. -/
def er42 : EscrowRecord := ⟨42, Addr.key 0, 0, 1, 500000000, modelBump⟩

/-- State with the test trade open: record stored at the derived address, vault
funded with the deposit, maker's source debited. -/
def chainOpen : Chain :=
  ⟨upd (fun _ => none) escrowE (some er42),
   upd (upd (upd (fun _ => none) makerAtaA (some ⟨0, Addr.key 0, 0⟩))
       takerAtaB (some ⟨1, Addr.key 1, 500000000⟩))
     vaultV (some ⟨0, escrowE, 1000000000⟩)⟩

/-- A state whose record sits at a non-derived address (`key 5`), for exercising
the address-recomputation checks. -/
def chainBadRec : Chain := ⟨upd (fun _ => none) (Addr.key 5) (some er42), fun _ => none⟩

/-- Correctly matched `make` arguments of the test scenario. -/
def maGood : MakeArgs := mkMakeArgs 0 0 1 42 500000000 1000000000

/-- Correctly matched `take` accounts of the test scenario. -/
def taGood : TakeArgs := mkTakeArgs 0 1 0 1 42

/-- Correctly matched `refund` accounts of the test scenario. -/
def raGood : RefundArgs := mkRefundArgs 0 0 42

/-- The test `make` with a zero deposit amount. -/
def maZero : MakeArgs := { maGood with amount := 0 }

/-- Take pointed at the non-derived record address `key 5`. -/
def taBadEscrow : TakeArgs := { taGood with escrow := Addr.key 5 }

/-- Refund pointed at the non-derived record address `key 5`. -/
def raBadEscrow : RefundArgs := { raGood with escrow := Addr.key 5 }

/-- Take supplied with a substituted vault account. -/
def taWrongVault : TakeArgs := { taGood with vault := Addr.key 7 }

/-- Refund supplied with a substituted vault account. -/
def raWrongVault : RefundArgs := { raGood with vault := Addr.key 7 }

/-- Make supplied with a substituted vault account. -/
def maWrongVault : MakeArgs := { maGood with vault := Addr.key 7 }

/-- Take supplied with an asset-B identifier disagreeing with the stored record. -/
def taWrongAsset : TakeArgs := { taGood with asset_b := 2 }

/-- Refund signed by `key 9`, not the trade's maker `key 0`. -/
def raWrongSigner : RefundArgs := { raGood with maker := Addr.key 9 }

/-- The state after a successful `take` of the open test trade. -/
def chainTaken : Chain :=
  ⟨upd chainOpen.records escrowE none,
   upd (credit (credit (upd chainOpen.tokens takerAtaB (some ⟨1, Addr.key 1, 0⟩))
          makerAtaB 1 (Addr.key 0) 500000000)
        takerAtaA 0 (Addr.key 1) 1000000000)
     vaultV none⟩

/-- The state after a successful `refund` of the open test trade. -/
def chainRefunded : Chain :=
  ⟨upd chainOpen.records escrowE none,
   upd (credit chainOpen.tokens makerAtaA 0 (Addr.key 0) 1000000000) vaultV none⟩

/-! Store and address lemmas. -/

theorem upd_self {α : Type} (f : Addr → Option α) (k : Addr) (v : Option α) :
    upd f k v k = v := by
  simp [upd]

theorem upd_other {α : Type} (f : Addr → Option α) {k x : Addr} (v : Option α)
    (h : x ≠ k) : upd f k v x = f x := by
  simp [upd, h]

theorem credit_other (tok : Addr → Option TokenAccount) {dst x : Addr}
    (mint : AssetId) (owner : Addr) (amt : Nat) (h : x ≠ dst) :
    credit tok dst mint owner amt x = tok x := by
  unfold credit
  cases tok dst with
  | none => exact upd_other _ _ h
  | some acct => exact upd_other _ _ h

theorem credit_bal (tok : Addr → Option TokenAccount) (dst : Addr)
    (mint : AssetId) (owner : Addr) (amt : Nat) :
    balOfTok (credit tok dst mint owner amt) dst = balOfTok tok dst + amt := by
  unfold credit balOfTok
  cases h : tok dst with
  | none => simp [upd_self]
  | some acct => simp [upd_self]

theorem balOfTok_upd_other (tok : Addr → Option TokenAccount) {k x : Addr}
    (v : Option TokenAccount) (h : x ≠ k) :
    balOfTok (upd tok k v) x = balOfTok tok x := by
  unfold balOfTok
  rw [upd_other _ _ h]

theorem balOfTok_credit_other (tok : Addr → Option TokenAccount) {dst x : Addr}
    (mint : AssetId) (owner : Addr) (amt : Nat) (h : x ≠ dst) :
    balOfTok (credit tok dst mint owner amt) x = balOfTok tok x := by
  unfold balOfTok
  rw [credit_other _ _ _ _ h]

theorem key_ne_pda (k : Nat) (t : List Nat) (o : Addr) (s : List Nat) :
    Addr.key k ≠ Addr.pda t o s := by
  intro h
  exact Addr.noConfusion h

theorem pda_ne_ata (t : List Nat) (o : Addr) (s : List Nat) (o' : Addr) (a : AssetId) :
    Addr.pda t o s ≠ Addr.ata o' a := by
  intro h
  exact Addr.noConfusion h

theorem key_ne_ata (k : Nat) (o : Addr) (a : AssetId) :
    Addr.key k ≠ Addr.ata o a := by
  intro h
  exact Addr.noConfusion h

theorem key_ne_key {k k' : Nat} (h : k ≠ k') : Addr.key k ≠ Addr.key k' := by
  intro hEq
  injection hEq with h1
  exact h h1

theorem ata_ne_of_owner {o o' : Addr} (a b : AssetId) (h : o ≠ o') :
    Addr.ata o a ≠ Addr.ata o' b := by
  intro hEq
  injection hEq with h1 h2
  exact h h1

theorem ata_ne_of_mint (o o' : Addr) {a b : AssetId} (h : a ≠ b) :
    Addr.ata o a ≠ Addr.ata o' b := by
  intro hEq
  injection hEq with h1 h2
  exact h h2

/-- No address equals a `pda` built over it: an address is never its own strict
subterm. -/
theorem pda_ne_owner (o : Addr) : ∀ t s, Addr.pda t o s ≠ o := by
  induction o with
  | key k => intro t s h; exact Addr.noConfusion h
  | pda t' o' s' ih =>
    intro t s h
    injection h with h1 h2 h3
    exact ih t' s' h2
  | ata o' a ih => intro t s h; exact Addr.noConfusion h

/-! Little-endian seed bytes. -/

theorem leVal_leBytes (k n : Nat) : leVal (leBytes k n) = n % 256 ^ k := by
  induction k generalizing n with
  | zero => simp [leBytes, leVal, Nat.mod_one]
  | succ k ih =>
    have h1 : n % (256 * 256 ^ k) % 256 = n % 256 :=
      Nat.mod_mod_of_dvd n (dvd_mul_right 256 (256 ^ k))
    have h2 : n % (256 * 256 ^ k) / 256 = n / 256 % 256 ^ k :=
      Nat.mod_mul_right_div_self n 256 (256 ^ k)
    have h3 := Nat.div_add_mod (n % (256 * 256 ^ k)) 256
    have hp : (256 : Nat) ^ (k + 1) = 256 * 256 ^ k := by ring
    simp only [leBytes, leVal]
    rw [ih, hp]
    omega

theorem u64le_inj {a b : Nat} (ha : a < 2 ^ 64) (hb : b < 2 ^ 64)
    (h : u64le a = u64le b) : a = b := by
  have h256 : (2 : Nat) ^ 64 = 256 ^ 8 := by norm_num
  have hv := congrArg leVal h
  rw [u64le, u64le, leVal_leBytes, leVal_leBytes] at hv
  rw [Nat.mod_eq_of_lt (h256 ▸ ha), Nat.mod_eq_of_lt (h256 ▸ hb)] at hv
  exact hv

theorem escrowAddress_inj {m m' : Addr} {s s' : Nat} (hs : s < 2 ^ 64)
    (hs' : s' < 2 ^ 64) (h : escrowAddress m s = escrowAddress m' s') :
    m = m' ∧ s = s' := by
  unfold escrowAddress at h
  injection h with h1 h2 h3
  exact ⟨h2, u64le_inj hs hs' h3⟩

/-! Success characterisations of the three operations. -/

theorem make_ok (st : Chain) (a : MakeArgs) (src : TokenAccount)
    (hr : a.receive ≠ 0) (ham : a.amount ≠ 0)
    (hesc : a.escrow = escrowAddress a.maker a.seed)
    (hnone : st.records a.escrow = none)
    (hv : a.vault = vaultAddress a.escrow a.asset_a)
    (hma : a.maker_ata_a = Addr.ata a.maker a.asset_a)
    (hsrc : st.tokens a.maker_ata_a = some src)
    (hbal : a.amount ≤ src.amount) :
    make st a = .ok ⟨upd st.records a.escrow
        (some ⟨a.seed, a.maker, a.asset_a, a.asset_b, a.receive, modelBump⟩),
      upd (upd st.tokens a.maker_ata_a (some ⟨src.mint, src.owner, src.amount - a.amount⟩))
        a.vault (some ⟨a.asset_a, a.escrow, a.amount⟩)⟩ := by
  unfold make
  rw [if_neg (by simp [hr, ham]), if_pos hesc, hnone]
  simp only [Option.isSome_none, Bool.false_eq_true, if_false]
  rw [if_pos hv, if_pos hma, hsrc]
  simp only
  rw [if_neg (by omega)]

theorem take_ok (st : Chain) (a : TakeArgs) (er : EscrowRecord)
    (vaultAcct tb : TokenAccount)
    (hrec : st.records a.escrow = some er)
    (hm : a.maker = er.maker)
    (haA : a.asset_a = er.asset_a) (haB : a.asset_b = er.asset_b)
    (hesc : a.escrow = escrowAddress er.maker er.seed)
    (hv : a.vault = vaultAddress a.escrow er.asset_a)
    (htb : a.taker_ata_b = Addr.ata a.taker er.asset_b)
    (hta : a.taker_ata_a = Addr.ata a.taker er.asset_a)
    (hmb : a.maker_ata_b = Addr.ata a.maker er.asset_b)
    (hvt : st.tokens a.vault = some vaultAcct)
    (htB : st.tokens a.taker_ata_b = some tb)
    (hbal : er.receive_amount ≤ tb.amount) :
    take st a = .ok ⟨upd st.records a.escrow none,
      upd (credit (credit (upd st.tokens a.taker_ata_b
              (some ⟨tb.mint, tb.owner, tb.amount - er.receive_amount⟩))
            a.maker_ata_b er.asset_b a.maker er.receive_amount)
          a.taker_ata_a er.asset_a a.taker vaultAcct.amount)
        a.vault none⟩ := by
  unfold take
  rw [hrec]
  simp only
  rw [if_pos hm, if_pos ⟨haA, haB⟩, if_pos hesc, if_pos hv, if_pos htb, if_pos hta,
    if_pos hmb, hvt]
  simp only
  rw [htB]
  simp only
  rw [if_neg (by omega)]

theorem refund_ok (st : Chain) (a : RefundArgs) (er : EscrowRecord)
    (vaultAcct : TokenAccount)
    (hrec : st.records a.escrow = some er)
    (hm : a.maker = er.maker)
    (hesc : a.escrow = escrowAddress er.maker er.seed)
    (hv : a.vault = vaultAddress a.escrow er.asset_a)
    (hma : a.maker_ata_a = Addr.ata a.maker er.asset_a)
    (hvt : st.tokens a.vault = some vaultAcct) :
    refund st a = .ok ⟨upd st.records a.escrow none,
      upd (credit st.tokens a.maker_ata_a er.asset_a a.maker vaultAcct.amount)
        a.vault none⟩ := by
  unfold refund
  rw [hrec]
  simp only
  rw [if_pos hm, if_pos hesc, if_pos hv, if_pos hma, hvt]

/-! Inversion of a successful operation: every validation held and the post-state
has exactly the shape of the effect list. -/

theorem take_ok_inv (st : Chain) (a : TakeArgs) (st' : Chain)
    (h : take st a = .ok st') :
    ∃ er vaultAcct tb,
      st.records a.escrow = some er ∧
      a.maker = er.maker ∧ a.asset_a = er.asset_a ∧ a.asset_b = er.asset_b ∧
      a.escrow = escrowAddress er.maker er.seed ∧
      a.vault = vaultAddress a.escrow er.asset_a ∧
      a.taker_ata_b = Addr.ata a.taker er.asset_b ∧
      a.taker_ata_a = Addr.ata a.taker er.asset_a ∧
      a.maker_ata_b = Addr.ata a.maker er.asset_b ∧
      st.tokens a.vault = some vaultAcct ∧
      st.tokens a.taker_ata_b = some tb ∧
      er.receive_amount ≤ tb.amount ∧
      st' = ⟨upd st.records a.escrow none,
        upd (credit (credit (upd st.tokens a.taker_ata_b
                (some ⟨tb.mint, tb.owner, tb.amount - er.receive_amount⟩))
              a.maker_ata_b er.asset_b a.maker er.receive_amount)
            a.taker_ata_a er.asset_a a.taker vaultAcct.amount)
          a.vault none⟩ := by
  unfold take at h
  repeat' split at h
  all_goals try exact Except.noConfusion h
  rename_i x1 er hrec hm hAB hesc hv htb hta hmb x2 vaultAcct hvt x3 tb htB hnlt
  injection h with h'
  exact ⟨er, vaultAcct, tb, hrec, hm, hAB.1, hAB.2, hesc, hv, htb, hta, hmb, hvt, htB,
    by omega, h'.symm⟩

theorem refund_ok_inv (st : Chain) (a : RefundArgs) (st' : Chain)
    (h : refund st a = .ok st') :
    ∃ er vaultAcct,
      st.records a.escrow = some er ∧
      a.maker = er.maker ∧
      a.escrow = escrowAddress er.maker er.seed ∧
      a.vault = vaultAddress a.escrow er.asset_a ∧
      a.maker_ata_a = Addr.ata a.maker er.asset_a ∧
      st.tokens a.vault = some vaultAcct ∧
      st' = ⟨upd st.records a.escrow none,
        upd (credit st.tokens a.maker_ata_a er.asset_a a.maker vaultAcct.amount)
          a.vault none⟩ := by
  unfold refund at h
  repeat' split at h
  all_goals try exact Except.noConfusion h
  rename_i x1 er hrec hm hesc hv hma x2 vaultAcct hvt
  injection h with h'
  exact ⟨er, vaultAcct, hrec, hm, hesc, hv, hma, hvt, h'.symm⟩

theorem balOfTok_upd_self (tok : Addr → Option TokenAccount) (k : Addr)
    (acct : TokenAccount) : balOfTok (upd tok k (some acct)) k = acct.amount := by
  unfold balOfTok
  rw [upd_self]

/-- Observable effects of a successful `take` on distinct parties and assets:
asset B moved to the maker, the vault's full balance moved to the taker, record
and vault gone. -/
theorem take_effects (st : Chain) (a : TakeArgs) (st' : Chain) (er : EscrowRecord)
    (h : take st a = .ok st') (hrec : st.records a.escrow = some er)
    (hab : er.asset_a ≠ er.asset_b) (htm : a.taker ≠ a.maker)
    (hte : a.taker ≠ a.escrow) :
    balOf st' a.taker_ata_a = balOf st a.taker_ata_a + balOf st a.vault ∧
    balOf st' a.maker_ata_b = balOf st a.maker_ata_b + er.receive_amount ∧
    balOf st' a.taker_ata_b = balOf st a.taker_ata_b - er.receive_amount ∧
    st'.records a.escrow = none ∧ st'.tokens a.vault = none := by
  obtain ⟨er', vaultAcct, tb, hrec', hm, haA, haB, hesc, hv, htb, hta, hmb, hvt, htB,
    hbal, hst'⟩ := take_ok_inv st a st' h
  rw [hrec] at hrec'
  injection hrec' with hee
  subst hee
  have hTAV : a.taker_ata_a ≠ a.vault := by
    rw [hta, hv]
    unfold vaultAddress
    exact ata_ne_of_owner _ _ hte
  have hTATB : a.taker_ata_a ≠ a.taker_ata_b := by
    rw [hta, htb]
    exact ata_ne_of_mint _ _ hab
  have hTAMB : a.taker_ata_a ≠ a.maker_ata_b := by
    rw [hta, hmb]
    exact ata_ne_of_owner _ _ htm
  have hTBV : a.taker_ata_b ≠ a.vault := by
    rw [htb, hv]
    unfold vaultAddress
    exact ata_ne_of_mint _ _ (Ne.symm hab)
  have hTBMB : a.taker_ata_b ≠ a.maker_ata_b := by
    rw [htb, hmb]
    exact ata_ne_of_owner _ _ htm
  have hMBV : a.maker_ata_b ≠ a.vault := by
    rw [hmb, hv]
    unfold vaultAddress
    exact ata_ne_of_mint _ _ (Ne.symm hab)
  have hVbal : balOfTok st.tokens a.vault = vaultAcct.amount := by
    unfold balOfTok
    rw [hvt]
  have hTBbal : balOfTok st.tokens a.taker_ata_b = tb.amount := by
    unfold balOfTok
    rw [htB]
  subst hst'
  refine ⟨?_, ?_, ?_, ?_, ?_⟩
  · unfold balOf
    dsimp only
    rw [balOfTok_upd_other _ _ hTAV, credit_bal, balOfTok_credit_other _ _ _ _ hTAMB,
      balOfTok_upd_other _ _ hTATB, hVbal]
  · unfold balOf
    dsimp only
    rw [balOfTok_upd_other _ _ hMBV, balOfTok_credit_other _ _ _ _ (Ne.symm hTAMB),
      credit_bal, balOfTok_upd_other _ _ (Ne.symm hTBMB)]
  · unfold balOf
    dsimp only
    rw [balOfTok_upd_other _ _ hTBV, balOfTok_credit_other _ _ _ _ (Ne.symm hTATB),
      balOfTok_credit_other _ _ _ _ hTBMB, balOfTok_upd_self, hTBbal]
  · dsimp only
    exact upd_self _ _ _
  · dsimp only
    exact upd_self _ _ _

/-- Observable effects of a successful `refund`: the vault's full balance returned
to the maker's destination, record and vault gone, everything else untouched. -/
theorem refund_effects (st : Chain) (a : RefundArgs) (st' : Chain)
    (h : refund st a = .ok st') :
    (∃ er, st.records a.escrow = some er ∧ a.maker = er.maker) ∧
    balOf st' a.maker_ata_a = balOf st a.maker_ata_a + balOf st a.vault ∧
    st'.records a.escrow = none ∧ st'.tokens a.vault = none ∧
    (∀ x, x ≠ a.maker_ata_a → x ≠ a.vault → st'.tokens x = st.tokens x) ∧
    (∀ x, x ≠ a.escrow → st'.records x = st.records x) := by
  obtain ⟨er, vaultAcct, hrec, hm, hesc, hv, hma, hvt, hst'⟩ := refund_ok_inv st a st' h
  have hme : a.maker ≠ a.escrow := by
    rw [hesc, ← hm]
    unfold escrowAddress
    exact Ne.symm (pda_ne_owner a.maker _ _)
  have hMAV : a.maker_ata_a ≠ a.vault := by
    rw [hma, hv]
    unfold vaultAddress
    exact ata_ne_of_owner _ _ hme
  have hVbal : balOfTok st.tokens a.vault = vaultAcct.amount := by
    unfold balOfTok
    rw [hvt]
  subst hst'
  refine ⟨⟨er, hrec, hm⟩, ?_, ?_, ?_, ?_, ?_⟩
  · unfold balOf
    dsimp only
    rw [balOfTok_upd_other _ _ hMAV, credit_bal, hVbal]
  · dsimp only
    exact upd_self _ _ _
  · dsimp only
    exact upd_self _ _ _
  · intro x hx1 hx2
    dsimp only
    rw [upd_other _ _ hx2, credit_other _ _ _ _ hx1]
  · intro x hx
    dsimp only
    rw [upd_other _ _ hx]

theorem finBal_ok (st : Chain) (x : Addr) : finBal (.ok st) x = some (balOf st x) := rfl

theorem finTokens_ok (st : Chain) (x : Addr) :
    finTokens (.ok st) x = some (st.tokens x) := rfl

theorem finRecords_ok (st : Chain) (x : Addr) :
    finRecords (.ok st) x = some (st.records x) := rfl

/-- C1: the record address is the deterministic derivation from the fixed literal
tag "escrow", the maker and the little-endian seed bytes (the definition of
`escrowAddress`); it binds the record to exactly one (maker, seed) pair, and both
Take and Refund recompute the address from the record's stored inputs and fail with
`AddressMismatch` — returning the pre-state whole — when the supplied record account
is not the recomputed address. -/
theorem c1_record_address_binding (m m' : Addr) (s s' : Nat) (st : Chain)
    (ta : TakeArgs) (ra : RefundArgs) (er er' : EscrowRecord) :
    (s < 2 ^ 64 → s' < 2 ^ 64 → escrowAddress m s = escrowAddress m' s' →
      m = m' ∧ s = s') ∧
    (st.records ta.escrow = some er → ta.maker = er.maker →
      ta.asset_a = er.asset_a → ta.asset_b = er.asset_b →
      ta.escrow ≠ escrowAddress er.maker er.seed →
      runOp (fun s0 => take s0 ta) st = (st, some .AddressMismatch)) ∧
    (st.records ra.escrow = some er' → ra.maker = er'.maker →
      ra.escrow ≠ escrowAddress er'.maker er'.seed →
      runOp (fun s0 => refund s0 ra) st = (st, some .AddressMismatch)) := by
  refine ⟨fun hs hs' h => escrowAddress_inj hs hs' h, ?_, ?_⟩
  · intro hrec hm haA haB hne
    have htk : take st ta = .error .AddressMismatch := by
      unfold take
      rw [hrec]
      simp only
      rw [if_pos hm, if_pos ⟨haA, haB⟩, if_neg hne]
    simp only [runOp, htk]
  · intro hrec hm hne
    have hrf : refund st ra = .error .AddressMismatch := by
      unfold refund
      rw [hrec]
      simp only
      rw [if_pos hm, if_neg hne]
    simp only [runOp, hrf]

/-- C1 witness: injectivity at (key 0, 42), and the recomputation checks reject a
record parked at the non-derived address `key 5` in both Take and Refund. -/
theorem c1_record_address_binding_witness :
    ((Addr.key 0 : Addr) = Addr.key 0 ∧ (42 : Nat) = 42) ∧
    runOp (fun s0 => take s0 taBadEscrow) chainBadRec =
      (chainBadRec, some .AddressMismatch) ∧
    runOp (fun s0 => refund s0 raBadEscrow) chainBadRec =
      (chainBadRec, some .AddressMismatch) := by
  obtain ⟨h1, h2, h3⟩ := c1_record_address_binding (Addr.key 0) (Addr.key 0) 42 42
    chainBadRec taBadEscrow raBadEscrow er42 er42
  exact ⟨h1 (by decide) (by decide) rfl,
    h2 (by decide) (by decide) (by decide) (by decide) (by decide),
    h3 (by decide) (by decide) (by decide)⟩

/-- C3: operations are atomic with respect to errors: any error returns the
pre-state whole; Take with an asset-B identifier disagreeing with the stored record
fails with `AssetMismatch` touching nothing; and a successful Take has moved the
asset-B payment to the maker, the vault's full balance to the taker, and deleted
the record. -/
theorem c3_atomicity (st st' : Chain) (ma : MakeArgs) (ta : TakeArgs)
    (ra : RefundArgs) (er : EscrowRecord) :
    (∀ e, make st ma = .error e → runOp (fun s0 => make s0 ma) st = (st, some e)) ∧
    (∀ e, take st ta = .error e → runOp (fun s0 => take s0 ta) st = (st, some e)) ∧
    (∀ e, refund st ra = .error e → runOp (fun s0 => refund s0 ra) st = (st, some e)) ∧
    (st.records ta.escrow = some er → ta.maker = er.maker →
      ta.asset_b ≠ er.asset_b →
      runOp (fun s0 => take s0 ta) st = (st, some .AssetMismatch)) ∧
    (take st ta = .ok st' → st.records ta.escrow = some er →
      er.asset_a ≠ er.asset_b → ta.taker ≠ ta.maker → ta.taker ≠ ta.escrow →
      balOf st' ta.maker_ata_b = balOf st ta.maker_ata_b + er.receive_amount ∧
      balOf st' ta.taker_ata_a = balOf st ta.taker_ata_a + balOf st ta.vault ∧
      st'.records ta.escrow = none) := by
  refine ⟨?_, ?_, ?_, ?_, ?_⟩
  · intro e he
    simp only [runOp, he]
  · intro e he
    simp only [runOp, he]
  · intro e he
    simp only [runOp, he]
  · intro hrec hm hne
    have htk : take st ta = .error .AssetMismatch := by
      unfold take
      rw [hrec]
      simp only
      rw [if_pos hm, if_neg (fun hc => hne hc.2)]
    simp only [runOp, htk]
  · intro h hrec h1 h2 h3
    obtain ⟨eTA, eMB, eTB, eRec, eV⟩ := take_effects st ta st' er h hrec h1 h2 h3
    exact ⟨eMB, eTA, eRec⟩

/-- C3 witness: a zero-amount Make and a mismatched-asset Take return the pre-state
whole with the specific error, and the successful test Take moved both legs and
deleted the record. -/
theorem c3_atomicity_witness :
    runOp (fun s0 => make s0 maZero) chain0 = (chain0, some EscrowError.InvalidAmount) ∧
    runOp (fun s0 => take s0 taWrongAsset) chainOpen =
      (chainOpen, some EscrowError.AssetMismatch) ∧
    balOf chainTaken makerAtaB = balOf chainOpen makerAtaB + er42.receive_amount ∧
    chainTaken.records taGood.escrow = none := by
  refine ⟨?_, ?_, ?_, ?_⟩
  · exact (c3_atomicity chain0 chain0 maZero taGood raGood er42).1 .InvalidAmount rfl
  · exact (c3_atomicity chainOpen chainOpen maZero taWrongAsset raGood er42).2.2.2.1
      (by decide) (by decide) (by decide)
  · exact ((c3_atomicity chainOpen chainTaken maZero taGood raGood er42).2.2.2.2 rfl
      (by decide) (by decide) (by decide) (by decide)).1
  · exact ((c3_atomicity chainOpen chainTaken maZero taGood raGood er42).2.2.2.2 rfl
      (by decide) (by decide) (by decide) (by decide)).2.2

/-- C4: Refund succeeds only when the signing caller equals the record's stored
maker; any other signer fails with `Unauthorized` — independent of every other
supplied account — and the pre-state is returned whole. -/
theorem c4_refund_authorization (st st' : Chain) (ra : RefundArgs)
    (er : EscrowRecord) :
    (st.records ra.escrow = some er → ra.maker ≠ er.maker →
      runOp (fun s0 => refund s0 ra) st = (st, some .Unauthorized)) ∧
    (refund st ra = .ok st' → st.records ra.escrow = some er →
      ra.maker = er.maker) := by
  constructor
  · intro hrec hne
    have hrf : refund st ra = .error .Unauthorized := by
      unfold refund
      rw [hrec]
      simp only
      rw [if_neg hne]
    simp only [runOp, hrf]
  · intro h hrec
    obtain ⟨er', va', hrec', hm, _, _, _, _, _⟩ := refund_ok_inv st ra st' h
    rw [hrec] at hrec'
    injection hrec' with hee
    rw [hm, hee]

/-- C4 witness: refund of the open test trade signed by `key 9` fails with
`Unauthorized` leaving the state whole; the successful maker-signed refund indeed
has the stored maker as signer. -/
theorem c4_refund_authorization_witness :
    runOp (fun s0 => refund s0 raWrongSigner) chainOpen =
      (chainOpen, some EscrowError.Unauthorized) ∧
    raGood.maker = er42.maker := by
  refine ⟨?_, ?_⟩
  · exact (c4_refund_authorization chainOpen chainOpen raWrongSigner er42).1
      (by decide) (by decide)
  · exact (c4_refund_authorization chainOpen chainRefunded raGood er42).2 rfl (by decide)

/-- C5: the trade state machine is two-state: a successful Take or Refund moves the
open trade (record present at the derived (maker, seed) address) to Closed, and any
second Take or Refund aimed at the same record address fails with `RecordNotFound`. -/
theorem c5_two_state_machine (st st' st'' : Chain) (ta : TakeArgs) (ra : RefundArgs) :
    (take st ta = .ok st' →
      (∃ er, st.records ta.escrow = some er ∧
        ta.escrow = escrowAddress er.maker er.seed ∧
        ¬ tradeOpen st' er.maker er.seed) ∧
      (∀ ta2 : TakeArgs, ta2.escrow = ta.escrow →
        take st' ta2 = .error .RecordNotFound) ∧
      (∀ ra2 : RefundArgs, ra2.escrow = ta.escrow →
        refund st' ra2 = .error .RecordNotFound)) ∧
    (refund st ra = .ok st'' →
      (∃ er, st.records ra.escrow = some er ∧
        ra.escrow = escrowAddress er.maker er.seed ∧
        ¬ tradeOpen st'' er.maker er.seed) ∧
      (∀ ta2 : TakeArgs, ta2.escrow = ra.escrow →
        take st'' ta2 = .error .RecordNotFound) ∧
      (∀ ra2 : RefundArgs, ra2.escrow = ra.escrow →
        refund st'' ra2 = .error .RecordNotFound)) := by
  constructor
  · intro h
    obtain ⟨er, va, tb, hrec, _, _, _, hesc, _, _, _, _, _, _, _, hst'⟩ :=
      take_ok_inv st ta st' h
    subst hst'
    have hclosed : ∀ x, x = ta.escrow →
        (upd st.records ta.escrow none : Addr → Option EscrowRecord) x = none := by
      intro x hx
      rw [hx]
      exact upd_self _ _ _
    refine ⟨⟨er, hrec, hesc, ?_⟩, ?_, ?_⟩
    · unfold tradeOpen
      dsimp only
      rw [hclosed _ hesc.symm]
      simp
    · intro ta2 h2
      unfold take
      dsimp only
      rw [hclosed _ h2]
    · intro ra2 h2
      unfold refund
      dsimp only
      rw [hclosed _ h2]
  · intro h
    obtain ⟨er, va, hrec, _, hesc, _, _, _, hst''⟩ := refund_ok_inv st ra st'' h
    subst hst''
    have hclosed : ∀ x, x = ra.escrow →
        (upd st.records ra.escrow none : Addr → Option EscrowRecord) x = none := by
      intro x hx
      rw [hx]
      exact upd_self _ _ _
    refine ⟨⟨er, hrec, hesc, ?_⟩, ?_, ?_⟩
    · unfold tradeOpen
      dsimp only
      rw [hclosed _ hesc.symm]
      simp
    · intro ta2 h2
      unfold take
      dsimp only
      rw [hclosed _ h2]
    · intro ra2 h2
      unfold refund
      dsimp only
      rw [hclosed _ h2]

/-- C5 witness: after the successful test Take (and, separately, the successful
test Refund), a second Take and a second Refund on the same (maker, seed) record
address fail with `RecordNotFound`. -/
theorem c5_two_state_machine_witness :
    take chainTaken taGood = .error EscrowError.RecordNotFound ∧
    refund chainTaken raGood = .error EscrowError.RecordNotFound ∧
    take chainRefunded taGood = .error EscrowError.RecordNotFound ∧
    refund chainRefunded raGood = .error EscrowError.RecordNotFound := by
  obtain ⟨hT, hR⟩ := c5_two_state_machine chainOpen chainTaken chainRefunded taGood raGood
  obtain ⟨_, hT2, hT3⟩ := hT rfl
  obtain ⟨_, hR2, hR3⟩ := hR rfl
  exact ⟨hT2 taGood rfl, hT3 raGood rfl, hR2 taGood rfl, hR3 raGood rfl⟩

/-- C8: Make with a zero deposit amount or a zero receive amount fails with
`InvalidAmount` and the pre-state is returned whole — no account was created. -/
theorem c8_make_zero_amount (st : Chain) (ma : MakeArgs)
    (h : ma.amount = 0 ∨ ma.receive = 0) :
    runOp (fun s0 => make s0 ma) st = (st, some .InvalidAmount) := by
  have hmk : make st ma = .error .InvalidAmount := by
    unfold make
    rw [if_pos (Or.symm h)]
  simp only [runOp, hmk]

/-- C8 witness: the test Make with `amount = 0` fails with `InvalidAmount`
leaving the initial state whole. -/
theorem c8_make_zero_amount_witness :
    (maZero.amount = 0 ∨ maZero.receive = 0) ∧
    runOp (fun s0 => make s0 maZero) chain0 = (chain0, some EscrowError.InvalidAmount) :=
  ⟨by decide, c8_make_zero_amount chain0 maZero (by decide)⟩

/-- C9: the vault address is deterministically fixed, not caller-chosen: it is the
associated-token address of the record's derived address and asset A (injective in
both), and Make, Take and Refund each reject a substituted vault account with
`AddressMismatch`, returning the pre-state whole. -/
theorem c9_vault_address_binding (e e' : Addr) (aA aA' : AssetId) (st : Chain)
    (ma : MakeArgs) (ta : TakeArgs) (ra : RefundArgs) (er er' : EscrowRecord) :
    (vaultAddress e aA = vaultAddress e' aA' → e = e' ∧ aA = aA') ∧
    (ma.receive ≠ 0 → ma.amount ≠ 0 → ma.escrow = escrowAddress ma.maker ma.seed →
      st.records ma.escrow = none → ma.vault ≠ vaultAddress ma.escrow ma.asset_a →
      runOp (fun s0 => make s0 ma) st = (st, some .AddressMismatch)) ∧
    (st.records ta.escrow = some er → ta.maker = er.maker →
      ta.asset_a = er.asset_a → ta.asset_b = er.asset_b →
      ta.escrow = escrowAddress er.maker er.seed →
      ta.vault ≠ vaultAddress ta.escrow er.asset_a →
      runOp (fun s0 => take s0 ta) st = (st, some .AddressMismatch)) ∧
    (st.records ra.escrow = some er' → ra.maker = er'.maker →
      ra.escrow = escrowAddress er'.maker er'.seed →
      ra.vault ≠ vaultAddress ra.escrow er'.asset_a →
      runOp (fun s0 => refund s0 ra) st = (st, some .AddressMismatch)) := by
  refine ⟨?_, ?_, ?_, ?_⟩
  · intro h
    unfold vaultAddress at h
    injection h with h1 h2
    exact ⟨h1, h2⟩
  · intro h1 h2 hesc hnone hv
    have hmk : make st ma = .error .AddressMismatch := by
      unfold make
      rw [if_neg (by simp [h1, h2]), if_pos hesc, hnone]
      simp only [Option.isSome_none, Bool.false_eq_true, if_false]
      rw [if_neg hv]
    simp only [runOp, hmk]
  · intro hrec hm haA haB hesc hv
    have htk : take st ta = .error .AddressMismatch := by
      unfold take
      rw [hrec]
      simp only
      rw [if_pos hm, if_pos ⟨haA, haB⟩, if_pos hesc, if_neg hv]
    simp only [runOp, htk]
  · intro hrec hm hesc hv
    have hrf : refund st ra = .error .AddressMismatch := by
      unfold refund
      rw [hrec]
      simp only
      rw [if_pos hm, if_pos hesc, if_neg hv]
    simp only [runOp, hrf]

/-- C9 witness: vault-address injectivity at the test trade, and each of the three
operations rejects a substituted vault account (`key 7`) with `AddressMismatch`. -/
theorem c9_vault_address_binding_witness :
    (escrowE = escrowE ∧ (0 : AssetId) = 0) ∧
    runOp (fun s0 => make s0 maWrongVault) chain0 =
      (chain0, some EscrowError.AddressMismatch) ∧
    runOp (fun s0 => take s0 taWrongVault) chainOpen =
      (chainOpen, some EscrowError.AddressMismatch) ∧
    runOp (fun s0 => refund s0 raWrongVault) chainOpen =
      (chainOpen, some EscrowError.AddressMismatch) := by
  refine ⟨?_, ?_, ?_, ?_⟩
  · exact (c9_vault_address_binding escrowE escrowE 0 0 chain0 maWrongVault taGood
      raGood er42 er42).1 rfl
  · exact (c9_vault_address_binding escrowE escrowE 0 0 chain0 maWrongVault taGood
      raGood er42 er42).2.1 (by decide) (by decide) (by decide) (by decide) (by decide)
  · exact (c9_vault_address_binding escrowE escrowE 0 0 chainOpen maWrongVault
      taWrongVault raGood er42 er42).2.2.1 (by decide) (by decide) (by decide)
      (by decide) (by decide) (by decide)
  · exact (c9_vault_address_binding escrowE escrowE 0 0 chainOpen maWrongVault taGood
      raWrongVault er42 er42).2.2.2 (by decide) (by decide) (by decide) (by decide)

/-- C10: after a successful Take, the record and the vault are closed: in this
embedding a closed account is removed from its store entirely (the stronger side of
the claim's disjunction — nothing survives in either account). -/
theorem c10_closed_accounts (st st' : Chain) (ta : TakeArgs)
    (h : take st ta = .ok st') :
    st'.records ta.escrow = none ∧ st'.tokens ta.vault = none := by
  obtain ⟨er, va, tb, _, _, _, _, _, _, _, _, _, _, _, _, hst'⟩ := take_ok_inv st ta st' h
  subst hst'
  exact ⟨upd_self _ _ _, upd_self _ _ _⟩

/-- C10 witness: the successful test Take leaves neither the record nor the vault
in the stores. -/
theorem c10_closed_accounts_witness :
    chainTaken.records taGood.escrow = none ∧ chainTaken.tokens taGood.vault = none :=
  c10_closed_accounts chainOpen chainTaken taGood rfl

/-- C6: a Make with nonzero amounts, correctly derived accounts, no record at the
derived address and a sufficiently funded source succeeds; the vault then holds
exactly the deposit amount, the record exists with the declared receive amount, and
the maker's asset-A source was debited by exactly the deposit amount. -/
theorem c6_make_effects (st : Chain) (a : MakeArgs) (src : TokenAccount)
    (hr : a.receive ≠ 0) (ham : a.amount ≠ 0)
    (hesc : a.escrow = escrowAddress a.maker a.seed)
    (hnone : st.records a.escrow = none)
    (hv : a.vault = vaultAddress a.escrow a.asset_a)
    (hma : a.maker_ata_a = Addr.ata a.maker a.asset_a)
    (hsrc : st.tokens a.maker_ata_a = some src)
    (hbal : a.amount ≤ src.amount) :
    finBal (make st a) a.vault = some a.amount ∧
    finRecords (make st a) a.escrow =
      some (some ⟨a.seed, a.maker, a.asset_a, a.asset_b, a.receive, modelBump⟩) ∧
    finBal (make st a) a.maker_ata_a = some (balOf st a.maker_ata_a - a.amount) := by
  have hmk := make_ok st a src hr ham hesc hnone hv hma hsrc hbal
  have hMAV : a.maker_ata_a ≠ a.vault := by
    rw [hma, hv, hesc]
    unfold vaultAddress escrowAddress
    exact ata_ne_of_owner _ _ (Ne.symm (pda_ne_owner a.maker _ _))
  have hsb : balOf st a.maker_ata_a = src.amount := by
    unfold balOf balOfTok
    rw [hsrc]
  refine ⟨?_, ?_, ?_⟩
  · rw [hmk, finBal_ok]
    unfold balOf
    dsimp only
    rw [balOfTok_upd_self]
  · rw [hmk, finRecords_ok]
    dsimp only
    rw [upd_self]
  · rw [hmk, finBal_ok, hsb]
    unfold balOf
    dsimp only
    rw [balOfTok_upd_other _ _ hMAV, balOfTok_upd_self]

/-- C6 witness: the test Make deposits 1_000_000_000 into the vault, creates the
record demanding 500_000_000, and debits the maker's source to zero. -/
theorem c6_make_effects_witness :
    finBal (make chain0 maGood) vaultV = some 1000000000 ∧
    finRecords (make chain0 maGood) escrowE = some (some er42) ∧
    finBal (make chain0 maGood) makerAtaA = some 0 := by
  have h := c6_make_effects chain0 maGood ⟨0, Addr.key 0, 1000000000⟩ (by decide)
    (by decide) (by decide) (by decide) (by decide) (by decide) (by decide) (by decide)
  exact ⟨h.1, h.2.1, h.2.2.trans (by decide)⟩

/-- C2: for every seed and positive amounts, with matched accounts, distinct
parties and assets, a sufficient maker deposit source and taker payment source:
Make then Take succeeds, the taker's asset-A balance rises by exactly the deposit,
the maker's asset-B balance rises by exactly the receive amount, the taker's
asset-B balance falls by exactly the receive amount, and record and vault are gone. -/
theorem c2_make_then_take (m t aA aB seed recv dep : Nat) (st : Chain)
    (src tb : TokenAccount)
    (hmt : m ≠ t) (hab : aA ≠ aB) (hrecv : 0 < recv) (hdep : 0 < dep)
    (hE : st.records (escrowAddress (Addr.key m) seed) = none)
    (hMA : st.tokens (Addr.ata (Addr.key m) aA) = some src) (hbalM : dep ≤ src.amount)
    (hTB : st.tokens (Addr.ata (Addr.key t) aB) = some tb) (hbalT : recv ≤ tb.amount) :
    finBal (andThen (make st (mkMakeArgs m aA aB seed recv dep))
        (fun s1 => take s1 (mkTakeArgs m t aA aB seed))) (Addr.ata (Addr.key t) aA) =
      some (balOf st (Addr.ata (Addr.key t) aA) + dep) ∧
    finBal (andThen (make st (mkMakeArgs m aA aB seed recv dep))
        (fun s1 => take s1 (mkTakeArgs m t aA aB seed))) (Addr.ata (Addr.key m) aB) =
      some (balOf st (Addr.ata (Addr.key m) aB) + recv) ∧
    finBal (andThen (make st (mkMakeArgs m aA aB seed recv dep))
        (fun s1 => take s1 (mkTakeArgs m t aA aB seed))) (Addr.ata (Addr.key t) aB) =
      some (balOf st (Addr.ata (Addr.key t) aB) - recv) ∧
    finTokens (andThen (make st (mkMakeArgs m aA aB seed recv dep))
        (fun s1 => take s1 (mkTakeArgs m t aA aB seed)))
      (vaultAddress (escrowAddress (Addr.key m) seed) aA) = some none ∧
    finRecords (andThen (make st (mkMakeArgs m aA aB seed recv dep))
        (fun s1 => take s1 (mkTakeArgs m t aA aB seed)))
      (escrowAddress (Addr.key m) seed) = some none := by
  have hTBV : Addr.ata (Addr.key t) aB ≠
      vaultAddress (escrowAddress (Addr.key m) seed) aA :=
    ata_ne_of_mint _ _ (Ne.symm hab)
  have hTBMA : Addr.ata (Addr.key t) aB ≠ Addr.ata (Addr.key m) aA :=
    ata_ne_of_mint _ _ (Ne.symm hab)
  have hTAV : Addr.ata (Addr.key t) aA ≠
      vaultAddress (escrowAddress (Addr.key m) seed) aA :=
    ata_ne_of_owner _ _ (key_ne_pda t _ _ _)
  have hTAMA : Addr.ata (Addr.key t) aA ≠ Addr.ata (Addr.key m) aA :=
    ata_ne_of_owner _ _ (key_ne_key (Ne.symm hmt))
  have hMBV : Addr.ata (Addr.key m) aB ≠
      vaultAddress (escrowAddress (Addr.key m) seed) aA :=
    ata_ne_of_mint _ _ (Ne.symm hab)
  have hMBMA : Addr.ata (Addr.key m) aB ≠ Addr.ata (Addr.key m) aA :=
    ata_ne_of_mint _ _ (Ne.symm hab)
  have hmk2 : make st (mkMakeArgs m aA aB seed recv dep) =
      .ok (postMake st m aA aB seed recv dep src) :=
    make_ok st (mkMakeArgs m aA aB seed recv dep) src (show recv ≠ 0 by omega)
      (show dep ≠ 0 by omega) rfl hE rfl rfl hMA hbalM
  have hrec1 : (postMake st m aA aB seed recv dep src).records
      (mkTakeArgs m t aA aB seed).escrow =
      some ⟨seed, Addr.key m, aA, aB, recv, modelBump⟩ := upd_self _ _ _
  have hvt1 : (postMake st m aA aB seed recv dep src).tokens
      (mkTakeArgs m t aA aB seed).vault =
      some ⟨aA, escrowAddress (Addr.key m) seed, dep⟩ := upd_self _ _ _
  have htB1 : (postMake st m aA aB seed recv dep src).tokens
      (mkTakeArgs m t aA aB seed).taker_ata_b = some tb := by
    simp only [postMake, mkTakeArgs]
    rw [upd_other _ _ hTBV, upd_other _ _ hTBMA, hTB]
  have htk := take_ok (postMake st m aA aB seed recv dep src)
    (mkTakeArgs m t aA aB seed) _ _ tb hrec1 rfl rfl rfl rfl rfl rfl rfl rfl
    hvt1 htB1 hbalT
  obtain ⟨eTA, eMB, eTB, eRec, eV⟩ := take_effects (postMake st m aA aB seed recv dep src)
    _ _ _ htk hrec1 hab (key_ne_key (Ne.symm hmt)) (key_ne_pda t _ _ _)
  simp only [mkTakeArgs] at eTA eMB eTB eRec eV
  have bTA : balOf (postMake st m aA aB seed recv dep src) (Addr.ata (Addr.key t) aA) =
      balOf st (Addr.ata (Addr.key t) aA) := by
    simp only [balOf, postMake]
    rw [balOfTok_upd_other _ _ hTAV, balOfTok_upd_other _ _ hTAMA]
  have bV : balOf (postMake st m aA aB seed recv dep src)
      (vaultAddress (escrowAddress (Addr.key m) seed) aA) = dep := by
    simp only [balOf, postMake]
    rw [balOfTok_upd_self]
  have bMB : balOf (postMake st m aA aB seed recv dep src) (Addr.ata (Addr.key m) aB) =
      balOf st (Addr.ata (Addr.key m) aB) := by
    simp only [balOf, postMake]
    rw [balOfTok_upd_other _ _ hMBV, balOfTok_upd_other _ _ hMBMA]
  have bTB : balOf (postMake st m aA aB seed recv dep src) (Addr.ata (Addr.key t) aB) =
      balOf st (Addr.ata (Addr.key t) aB) := by
    simp only [balOf, postMake]
    rw [balOfTok_upd_other _ _ hTBV, balOfTok_upd_other _ _ hTBMA]
  have hseq : andThen (make st (mkMakeArgs m aA aB seed recv dep))
      (fun s1 => take s1 (mkTakeArgs m t aA aB seed)) =
      take (postMake st m aA aB seed recv dep src) (mkTakeArgs m t aA aB seed) := by
    rw [hmk2]
    rfl
  refine ⟨?_, ?_, ?_, ?_, ?_⟩
  · rw [hseq, htk, finBal_ok]
    simp only [mkTakeArgs]
    rw [eTA, bTA, bV]
  · rw [hseq, htk, finBal_ok]
    simp only [mkTakeArgs]
    rw [eMB, bMB]
  · rw [hseq, htk, finBal_ok]
    simp only [mkTakeArgs]
    rw [eTB, bTB]
  · rw [hseq, htk, finTokens_ok]
    simp only [mkTakeArgs]
    rw [eV]
  · rw [hseq, htk, finRecords_ok]
    simp only [mkTakeArgs]
    rw [eRec]

/-- C2 witness: the spec's concrete scenario — deposit 1_000_000_000 of asset A,
seed 42, demand 500_000_000 of asset B, taker holding exactly 500_000_000 of asset B;
after Make then Take the taker holds 1_000_000_000 of A and 0 of B, the maker holds
500_000_000 of B, and the record and vault are absent. -/
theorem c2_make_then_take_witness :
    finBal (andThen (make chain0 (mkMakeArgs 0 0 1 42 500000000 1000000000))
        (fun s1 => take s1 (mkTakeArgs 0 1 0 1 42))) takerAtaA = some 1000000000 ∧
    finBal (andThen (make chain0 (mkMakeArgs 0 0 1 42 500000000 1000000000))
        (fun s1 => take s1 (mkTakeArgs 0 1 0 1 42))) makerAtaB = some 500000000 ∧
    finBal (andThen (make chain0 (mkMakeArgs 0 0 1 42 500000000 1000000000))
        (fun s1 => take s1 (mkTakeArgs 0 1 0 1 42))) takerAtaB = some 0 ∧
    finTokens (andThen (make chain0 (mkMakeArgs 0 0 1 42 500000000 1000000000))
        (fun s1 => take s1 (mkTakeArgs 0 1 0 1 42))) vaultV = some none ∧
    finRecords (andThen (make chain0 (mkMakeArgs 0 0 1 42 500000000 1000000000))
        (fun s1 => take s1 (mkTakeArgs 0 1 0 1 42))) escrowE = some none := by
  have h := c2_make_then_take 0 1 0 1 42 500000000 1000000000 chain0
    ⟨0, Addr.key 0, 1000000000⟩ ⟨1, Addr.key 1, 500000000⟩ (by decide) (by decide)
    (by decide) (by decide) (by decide) (by decide) (by decide) (by decide) (by decide)
  exact ⟨h.1.trans (by decide), h.2.1.trans (by decide), h.2.2.1.trans (by decide),
    h.2.2.2.1, h.2.2.2.2⟩

/-- C7: Make then Refund (no Take) succeeds, returns the vault's full balance —
the original deposit — to the maker's asset-A destination (net unchanged from the
initial state), removes record and vault, and leaves every other token account,
in particular every taker account, untouched. -/
theorem c7_make_then_refund (m aA aB seed recv dep : Nat) (st : Chain)
    (src : TokenAccount)
    (hrecv : 0 < recv) (hdep : 0 < dep)
    (hE : st.records (escrowAddress (Addr.key m) seed) = none)
    (hMA : st.tokens (Addr.ata (Addr.key m) aA) = some src) (hbalM : dep ≤ src.amount) :
    finBal (andThen (make st (mkMakeArgs m aA aB seed recv dep))
        (fun s1 => refund s1 (mkRefundArgs m aA seed))) (Addr.ata (Addr.key m) aA) =
      some (balOf st (Addr.ata (Addr.key m) aA)) ∧
    finRecords (andThen (make st (mkMakeArgs m aA aB seed recv dep))
        (fun s1 => refund s1 (mkRefundArgs m aA seed)))
      (escrowAddress (Addr.key m) seed) = some none ∧
    finTokens (andThen (make st (mkMakeArgs m aA aB seed recv dep))
        (fun s1 => refund s1 (mkRefundArgs m aA seed)))
      (vaultAddress (escrowAddress (Addr.key m) seed) aA) = some none ∧
    (∀ x, x ≠ Addr.ata (Addr.key m) aA →
      x ≠ vaultAddress (escrowAddress (Addr.key m) seed) aA →
      finTokens (andThen (make st (mkMakeArgs m aA aB seed recv dep))
        (fun s1 => refund s1 (mkRefundArgs m aA seed))) x = some (st.tokens x)) := by
  have hMAV : Addr.ata (Addr.key m) aA ≠
      vaultAddress (escrowAddress (Addr.key m) seed) aA :=
    ata_ne_of_owner _ _ (Ne.symm (pda_ne_owner (Addr.key m) _ _))
  have hmk2 : make st (mkMakeArgs m aA aB seed recv dep) =
      .ok (postMake st m aA aB seed recv dep src) :=
    make_ok st (mkMakeArgs m aA aB seed recv dep) src (show recv ≠ 0 by omega)
      (show dep ≠ 0 by omega) rfl hE rfl rfl hMA hbalM
  have hrec1 : (postMake st m aA aB seed recv dep src).records
      (mkRefundArgs m aA seed).escrow =
      some ⟨seed, Addr.key m, aA, aB, recv, modelBump⟩ := upd_self _ _ _
  have hvt1 : (postMake st m aA aB seed recv dep src).tokens
      (mkRefundArgs m aA seed).vault =
      some ⟨aA, escrowAddress (Addr.key m) seed, dep⟩ := upd_self _ _ _
  have hrf := refund_ok (postMake st m aA aB seed recv dep src) (mkRefundArgs m aA seed)
    _ _ hrec1 rfl rfl rfl rfl hvt1
  obtain ⟨_, eMA, eRec, eV, eTok, _⟩ :=
    refund_effects (postMake st m aA aB seed recv dep src) _ _ hrf
  simp only [mkRefundArgs] at eMA eRec eV eTok
  have bMA : balOf (postMake st m aA aB seed recv dep src) (Addr.ata (Addr.key m) aA) =
      src.amount - dep := by
    simp only [balOf, postMake]
    rw [balOfTok_upd_other _ _ hMAV, balOfTok_upd_self]
  have bV : balOf (postMake st m aA aB seed recv dep src)
      (vaultAddress (escrowAddress (Addr.key m) seed) aA) = dep := by
    simp only [balOf, postMake]
    rw [balOfTok_upd_self]
  have hsb : balOf st (Addr.ata (Addr.key m) aA) = src.amount := by
    unfold balOf balOfTok
    rw [hMA]
  have hseq : andThen (make st (mkMakeArgs m aA aB seed recv dep))
      (fun s1 => refund s1 (mkRefundArgs m aA seed)) =
      refund (postMake st m aA aB seed recv dep src) (mkRefundArgs m aA seed) := by
    rw [hmk2]
    rfl
  refine ⟨?_, ?_, ?_, ?_⟩
  · rw [hseq, hrf, finBal_ok]
    simp only [mkRefundArgs]
    rw [eMA, bMA, bV, hsb, Nat.sub_add_cancel hbalM]
  · rw [hseq, hrf, finRecords_ok]
    simp only [mkRefundArgs]
    rw [eRec]
  · rw [hseq, hrf, finTokens_ok]
    simp only [mkRefundArgs]
    rw [eV]
  · intro x hx1 hx2
    rw [hseq, hrf, finTokens_ok]
    simp only [mkRefundArgs]
    rw [eTok x hx1 hx2]
    simp only [postMake]
    rw [upd_other _ _ hx2, upd_other _ _ hx1]

/-- C7 witness: Make then Refund of the test trade restores the maker's asset-A
balance to 1_000_000_000, removes record and vault, and leaves the taker's asset-B
account exactly as it was. -/
theorem c7_make_then_refund_witness :
    finBal (andThen (make chain0 (mkMakeArgs 0 0 1 42 500000000 1000000000))
        (fun s1 => refund s1 (mkRefundArgs 0 0 42))) makerAtaA = some 1000000000 ∧
    finRecords (andThen (make chain0 (mkMakeArgs 0 0 1 42 500000000 1000000000))
        (fun s1 => refund s1 (mkRefundArgs 0 0 42))) escrowE = some none ∧
    finTokens (andThen (make chain0 (mkMakeArgs 0 0 1 42 500000000 1000000000))
        (fun s1 => refund s1 (mkRefundArgs 0 0 42))) vaultV = some none ∧
    finTokens (andThen (make chain0 (mkMakeArgs 0 0 1 42 500000000 1000000000))
        (fun s1 => refund s1 (mkRefundArgs 0 0 42))) takerAtaB =
      some (some ⟨1, Addr.key 1, 500000000⟩) := by
  have h := c7_make_then_refund 0 0 1 42 500000000 1000000000 chain0
    ⟨0, Addr.key 0, 1000000000⟩ (by decide) (by decide) (by decide) (by decide)
    (by decide)
  exact ⟨h.1.trans (by decide), h.2.1, h.2.2.1,
    (h.2.2.2 takerAtaB (by decide) (by decide)).trans (by decide)⟩

end AnchorEscrow
